import Mathlib

/-!
Verification of `caravel-sim-infrastructure` (cocotb test-orchestration
harness).  The developments below shallowly embed the Python code of
`scripts/verify_cocotb/RunTest.py` and `interfaces/openframe.py`:

* the netlist hash cache (`calculate_netlist_hash`, `is_same_hash`,
  `write_hash`),
* the compile-decision logic with its process-wide `COMPILE_LOCK`
  (`runTest_iverilog` / `runTest_vcs`),
* the streaming output processor (`run_command_write_to_file` with its
  noise filter and progressive-duplicate buffering),
* the OpenFrame GPIO interaction API (`drive_gpio`, `drive_gpio_range`,
  `release_gpio`, `monitor_gpio`).

File contents are modelled as byte lists, the file system as a partial map
from path strings to file results, and the SHA-256 digest is abstracted as
an arbitrary function from the concatenated byte stream to a hex string
(none of the verified properties depend on the internals of SHA-256, only
on the order in which bytes are fed to it).
-/

namespace CaravelSim

/-! ### Netlist hash cache (RunTest.py, `calculate_netlist_hash` / `is_same_hash` / `write_hash`) -/

/-- Result of opening a file: contents, `FileNotFoundError`, or `PermissionError`. -/
inductive FileRes where
  | ok (data : List Nat)
  | notFound
  | permDenied
deriving DecidableEq

/-- The file-system state visible to the hash cache: the netlist files, plus
the per-test hash-log file (`self.test.hash_log`), `none` when absent. -/
structure TestFS where
  files : String → FileRes
  hashLog : Option String

/-- Python's `sorted(netlist)`: ascending lexicographic sort of the path
strings.  (`insertionSort` is extensionally the same output as Python's
stable sort because string order is total and antisymmetric.) -/
def sortNetlist (netlist : List String) : List String :=
  netlist.insertionSort (· ≤ ·)

/-- The loop body of `calculate_netlist_hash`: feed each file of the sorted
list into the running digest; on the first unreadable file return the
descriptive error string instead (`"File not found: …"` /
`"Permission denied: …"`), exactly as the `except` clauses do. -/
def hashGo (digest : List Nat → String) (fs : String → FileRes) :
    List String → List Nat → String
  | [], acc => digest acc
  | p :: rest, acc =>
    match fs p with
    | .ok data => hashGo digest fs rest (acc ++ data)
    | .notFound => "File not found: " ++ p
    | .permDenied => "Permission denied: " ++ p

/-- `RunTest.calculate_netlist_hash(netlist)`: combined digest of the files
in sorted path order, or a descriptive error string if one is unreadable.
`digest` abstracts `hashlib.sha256(...).hexdigest()`. -/
def calculate_netlist_hash (digest : List Nat → String) (fs : String → FileRes)
    (netlist : List String) : String :=
  hashGo digest fs (sortNetlist netlist) []

/-- `RunTest.write_hash(netlist)`: recompute the digest, overwrite the
hash-log file with it, and return it. -/
def write_hash (digest : List Nat → String) (fs : TestFS) (netlist : List String) :
    TestFS × String :=
  let h := calculate_netlist_hash digest fs.files netlist
  ({ fs with hashLog := some h }, h)

/-- `RunTest.is_same_hash(netlist)`: read the previously stored digest
(an absent hash-log file gives `old_hash = 0`, which can never equal the
fresh string digest, modelled by the `none` branch), then recompute and
persist the fresh digest via `write_hash`, and return whether they match. -/
def is_same_hash (digest : List Nat → String) (fs : TestFS) (netlist : List String) :
    TestFS × Bool :=
  let old := fs.hashLog
  let res := write_hash digest fs netlist
  (res.1, match old with
          | some o => res.2 == o
          | none => false)

/-! ### Compile-decision logic and the process-wide `COMPILE_LOCK`
(RunTest.py, `runTest_iverilog` lines 181–204 and `runTest_vcs`
lines 299–324; both use the same decision structure, differing only in the
artifact name `sim.vvp` vs `simv`). -/

/-- One orchestrator invocation, as seen by the compile-decision ladder:
the compiled artifact path, whether that artifact file exists on disk,
whether the explicit `--compile` flag is set, and the value returned by
`is_same_hash` for this invocation's netlist. -/
structure Invocation where
  artifact : String
  artifactExists : Bool
  compileFlag : Bool
  sameHash : Bool

/-- The compile decision of `runTest_iverilog` / `runTest_vcs`, evaluated
against the current `COMPILE_LOCK` contents: (1) compile if the artifact is
absent; (2) else compile if the compile flag is set; (3) else compile if
the hash changed and the artifact is not locked; (4) else skip. -/
def compileDecision (lock : List String) (inv : Invocation) : Bool :=
  if !inv.artifactExists then true
  else if inv.compileFlag then true
  else if !inv.sameHash && !(lock.contains inv.artifact) then true
  else false

/-- One full `runTest_*` step: take the compile decision, then
unconditionally add the artifact path to `COMPILE_LOCK`
(`RunTest.COMPILE_LOCK.add(...)` runs on every invocation).  Returns
whether compilation was invoked, and the new lock contents. -/
def runTest_step (lock : List String) (inv : Invocation) : Bool × List String :=
  (compileDecision lock inv,
   if lock.contains inv.artifact then lock else inv.artifact :: lock)

/-- The lock contents after a sequence of invocations. -/
def runLock (lock : List String) (invs : List Invocation) : List String :=
  invs.foldl (fun l inv => (runTest_step l inv).2) lock

theorem runTest_step_lock_mono {lock : List String} {a : String} (inv : Invocation)
    (h : a ∈ lock) : a ∈ (runTest_step lock inv).2 := by
  simp only [runTest_step]
  split
  · exact h
  · exact List.mem_cons_of_mem _ h

theorem runLock_mono {lock : List String} {a : String} (invs : List Invocation)
    (h : a ∈ lock) : a ∈ runLock lock invs := by
  induction invs generalizing lock with
  | nil => exact h
  | cons inv rest ih => exact ih (runTest_step_lock_mono inv h)

theorem runTest_step_locks_artifact (lock : List String) (inv : Invocation) :
    inv.artifact ∈ (runTest_step lock inv).2 := by
  simp only [runTest_step]
  split
  · rename_i hmem
    exact List.elem_iff.mp hmem
  · exact List.mem_cons_self _ _

/-- C1: once a compiled artifact path has been added to the process-wide
compile lock by some invocation `invJ`, any later invocation `invI` for the
same artifact in which the artifact file exists on disk and the explicit
compile flag is not set never invokes compilation, regardless of the
invocations in between and regardless of `invI`'s hash-comparison result. -/
theorem compile_lock_prevents_recompilation
    (lock₀ : List String) (invJ : Invocation) (mid : List Invocation)
    (invI : Invocation)
    (hart : invI.artifact = invJ.artifact)
    (hex : invI.artifactExists = true)
    (hcf : invI.compileFlag = false) :
    (runTest_step (runLock (runTest_step lock₀ invJ).2 mid) invI).1 = false := by
  have hlocked : invI.artifact ∈ runLock (runTest_step lock₀ invJ).2 mid := by
    rw [hart]
    exact runLock_mono mid (runTest_step_locks_artifact lock₀ invJ)
  show compileDecision (runLock (runTest_step lock₀ invJ).2 mid) invI = false
  simp only [compileDecision, hex, hcf]
  simp only [Bool.not_true, Bool.false_eq_true, if_false, Bool.not_false, Bool.and_eq_true,
    Bool.not_eq_true', List.contains_eq_any_beq]
  simp
  exact fun _ => hlocked

/-- Witness for C1 at a concrete trace: locking `sim.vvp` on a first
invocation prevents compilation on a later invocation with a differing
hash. -/
theorem compile_lock_prevents_recompilation_witness :
    (Invocation.mk "dir/sim.vvp" true false false).artifact
        = (Invocation.mk "dir/sim.vvp" false false true).artifact ∧
    (Invocation.mk "dir/sim.vvp" true false false).artifactExists = true ∧
    (Invocation.mk "dir/sim.vvp" true false false).compileFlag = false ∧
    (runTest_step (runLock
        (runTest_step [] (Invocation.mk "dir/sim.vvp" false false true)).2 [])
        (Invocation.mk "dir/sim.vvp" true false false)).1 = false :=
  ⟨rfl, rfl, rfl,
   compile_lock_prevents_recompilation [] (Invocation.mk "dir/sim.vvp" false false true)
     [] (Invocation.mk "dir/sim.vvp" true false false) rfl rfl rfl⟩

theorem hashGo_error (digest : List Nat → String) (fs : String → FileRes) :
    ∀ (l : List String) (acc : List Nat),
      (∃ p ∈ l, ∀ d, fs p ≠ FileRes.ok d) →
      ∃ q ∈ l, hashGo digest fs l acc = "File not found: " ++ q ∨
        hashGo digest fs l acc = "Permission denied: " ++ q := by
  intro l
  induction l with
  | nil => intro acc h; obtain ⟨p, hp, _⟩ := h; cases hp
  | cons p rest ih =>
    intro acc h
    cases hfp : fs p with
    | ok d =>
      obtain ⟨x, hx, hbad⟩ := h
      have hxrest : x ∈ rest := by
        rcases List.mem_cons.mp hx with hxe | hxr
        · exact absurd hfp (hxe ▸ hbad d)
        · exact hxr
      obtain ⟨q, hq, hcase⟩ := ih (acc ++ d) ⟨x, hxrest, hbad⟩
      refine ⟨q, List.mem_cons_of_mem _ hq, ?_⟩
      simpa [hashGo, hfp] using hcase
    | notFound =>
      exact ⟨p, List.mem_cons_self _ _, Or.inl (by simp [hashGo, hfp])⟩
    | permDenied =>
      exact ⟨p, List.mem_cons_self _ _, Or.inr (by simp [hashGo, hfp])⟩

/-- C3 counterexample: with the netlist file `missing.v` absent, the fresh
"digest" is the error string `"File not found: missing.v"`; when the
hash-log file already holds that very string (e.g. left by a previous
failed run), `is_same_hash` returns `true` — it does **not** treat the
error result as a cache miss, so recompilation is not forced. -/
theorem hash_error_not_always_cache_miss :
    (fun _ : String => FileRes.notFound) "missing.v" = FileRes.notFound ∧
    calculate_netlist_hash (fun _ => "d") (fun _ => FileRes.notFound) ["missing.v"]
      = "File not found: missing.v" ∧
    (is_same_hash (fun _ => "d")
        ⟨fun _ => FileRes.notFound, some "File not found: missing.v"⟩
        ["missing.v"]).2 = true :=
  ⟨rfl, rfl, rfl⟩

/-- C3 (amended): when a netlist file is missing or unreadable,
`calculate_netlist_hash` returns a descriptive error string instead of
raising, and `is_same_hash` reports the netlist as changed (forcing
recompilation) *provided* the persisted hash-log content is not already
that same error string (as can happen after a previous failed run). -/
theorem hash_error_is_descriptive_and_usually_cache_miss
    (digest : List Nat → String) (fs : TestFS) (netlist : List String) (p : String)
    (hp : p ∈ netlist) (hbad : ∀ d, fs.files p ≠ FileRes.ok d) :
    (∃ q ∈ netlist,
        calculate_netlist_hash digest fs.files netlist = "File not found: " ++ q ∨
        calculate_netlist_hash digest fs.files netlist = "Permission denied: " ++ q) ∧
    (fs.hashLog ≠ some (calculate_netlist_hash digest fs.files netlist) →
      (is_same_hash digest fs netlist).2 = false) := by
  constructor
  · have hmem : p ∈ sortNetlist netlist :=
      (List.perm_insertionSort _ netlist).mem_iff.mpr hp
    obtain ⟨q, hq, hcase⟩ := hashGo_error digest fs.files (sortNetlist netlist) []
      ⟨p, hmem, hbad⟩
    exact ⟨q, (List.perm_insertionSort _ netlist).mem_iff.mp hq, hcase⟩
  · intro hne
    cases hlog : fs.hashLog with
    | none => simp [is_same_hash, write_hash, hlog]
    | some o =>
      simp only [is_same_hash, write_hash, hlog]
      rw [beq_eq_false_iff_ne]
      intro heq
      exact hne (hlog.trans (by rw [heq]))

/-- Witness for C3 (amended) at a concrete input: one absent file `a.v`,
hash log absent. -/
theorem hash_error_is_descriptive_and_usually_cache_miss_witness :
    "a.v" ∈ ["a.v"] ∧
    (∃ q ∈ ["a.v"],
        calculate_netlist_hash (fun _ => "d") (fun _ => FileRes.notFound) ["a.v"]
          = "File not found: " ++ q ∨
        calculate_netlist_hash (fun _ => "d") (fun _ => FileRes.notFound) ["a.v"]
          = "Permission denied: " ++ q) ∧
    ((⟨fun _ => FileRes.notFound, none⟩ : TestFS).hashLog ≠
        some (calculate_netlist_hash (fun _ => "d") (fun _ => FileRes.notFound) ["a.v"]) →
      (is_same_hash (fun _ => "d") ⟨fun _ => FileRes.notFound, none⟩ ["a.v"]).2 = false) :=
  ⟨List.mem_singleton.mpr rfl,
   (hash_error_is_descriptive_and_usually_cache_miss (fun _ => "d")
      ⟨fun _ => FileRes.notFound, none⟩ ["a.v"] "a.v" (List.mem_singleton.mpr rfl)
      (fun _ h => FileRes.noConfusion h)).1,
   (hash_error_is_descriptive_and_usually_cache_miss (fun _ => "d")
      ⟨fun _ => FileRes.notFound, none⟩ ["a.v"] "a.v" (List.mem_singleton.mpr rfl)
      (fun _ h => FileRes.noConfusion h)).2⟩

/-- C4: the combined netlist digest is independent of the enumeration order
of the file list — any permutation of the netlist yields the identical
digest, because the paths are sorted before hashing. -/
theorem calculate_netlist_hash_perm (digest : List Nat → String)
    (fs : String → FileRes) (n₁ n₂ : List String) (hp : n₁.Perm n₂) :
    calculate_netlist_hash digest fs n₁ = calculate_netlist_hash digest fs n₂ := by
  have hsorteq : sortNetlist n₁ = sortNetlist n₂ :=
    List.eq_of_perm_of_sorted
      (((List.perm_insertionSort _ n₁).trans hp).trans
        (List.perm_insertionSort _ n₂).symm)
      (List.sorted_insertionSort _ n₁) (List.sorted_insertionSort _ n₂)
  unfold calculate_netlist_hash
  rw [hsorteq]

/-- Witness for C4 at a concrete permutation of two readable files. -/
theorem calculate_netlist_hash_perm_witness :
    (["b.v", "a.v"] : List String).Perm ["a.v", "b.v"] ∧
    calculate_netlist_hash (fun l => toString l.length)
        (fun _ => FileRes.ok [1, 2]) ["b.v", "a.v"]
      = calculate_netlist_hash (fun l => toString l.length)
        (fun _ => FileRes.ok [1, 2]) ["a.v", "b.v"] :=
  ⟨by decide,
   calculate_netlist_hash_perm (fun l => toString l.length)
     (fun _ => FileRes.ok [1, 2]) ["b.v", "a.v"] ["a.v", "b.v"] (by decide)⟩

/-- C6: when no hash-log file exists at the persisted location
(`FileNotFoundError` sets `old_hash = 0`, which a string digest can never
equal), `is_same_hash` returns `false`, reporting the netlist as changed
and forcing the first compilation. -/
theorem is_same_hash_no_log_reports_changed (digest : List Nat → String)
    (fs : TestFS) (netlist : List String) (h : fs.hashLog = none) :
    (is_same_hash digest fs netlist).2 = false := by
  simp [is_same_hash, write_hash, h]

/-- Witness for C6 at a concrete state with an absent hash log. -/
theorem is_same_hash_no_log_reports_changed_witness :
    (⟨fun _ => FileRes.ok [], none⟩ : TestFS).hashLog = none ∧
    (is_same_hash (fun _ => "d") ⟨fun _ => FileRes.ok [], none⟩ ["a.v"]).2 = false :=
  ⟨rfl,
   is_same_hash_no_log_reports_changed (fun _ => "d")
     ⟨fun _ => FileRes.ok [], none⟩ ["a.v"] rfl⟩

/-- C7: every call to `is_same_hash` persists the freshly computed digest,
overwriting the hash-log file so that afterwards it contains exactly the
fresh digest — regardless of the comparison outcome — and leaves the
netlist files themselves untouched. -/
theorem is_same_hash_persists_fresh_digest (digest : List Nat → String)
    (fs : TestFS) (netlist : List String) :
    (is_same_hash digest fs netlist).1.hashLog
        = some (calculate_netlist_hash digest fs.files netlist) ∧
    (is_same_hash digest fs netlist).1.files = fs.files :=
  ⟨rfl, rfl⟩

/-! ### Streaming output processor (RunTest.py, `run_command_write_to_file`)

Lines are modelled as `List Char`.  The Python regular expressions involved
are simple enough to embed directly: each compiled pattern becomes a
Boolean matcher, `re.search` becomes a scan over every start position. -/

/-- Python's regex class `\s` (ASCII part, the only part the patterns meet). -/
def isPySpace (c : Char) : Bool :=
  c = ' ' || c = '\t' || c = '\n' || c = '\r' || c = Char.ofNat 11 || c = Char.ofNat 12

/-- Python's regex class `\d`. -/
def isPyDigit (c : Char) : Bool :=
  '0' ≤ c && c ≤ '9'

/-- `str.rstrip()`: drop trailing whitespace. -/
def rstrip (l : List Char) : List Char :=
  (l.reverse.dropWhile isPySpace).reverse

/-- Character-range test for the regex classes of the ANSI pattern. -/
def inRange (lo hi c : Char) : Bool :=
  lo ≤ c && c ≤ hi

/-- Match the tail of the compiled ANSI-escape pattern (ESC, one char in
the range `@` to `_`, then greedily many in the range `0` to `?`, then
greedily many in the range space to slash, then one char in the range `@`
to `~`) after the leading ESC.  The three classes are disjoint character
ranges, so greedy matching needs no backtracking.  Returns the remainder of
the input after the match, or `none` when there is no match here. -/
def ansiTail (l : List Char) : Option (List Char) :=
  match l with
  | [] => none
  | c₂ :: r₂ =>
    if inRange '@' '_' c₂ then
      match (r₂.dropWhile (inRange '0' '?')).dropWhile (inRange ' ' '/') with
      | [] => none
      | c₅ :: r₅ => if inRange '@' '~' c₅ then some r₅ else none
    else none

theorem ansiTail_length {l r : List Char} (h : ansiTail l = some r) :
    r.length < l.length := by
  match l with
  | [] => simp [ansiTail] at h
  | c₂ :: r₂ =>
    simp only [ansiTail] at h
    split at h
    · rename_i hdrop
      split at h
      · exact absurd h (by simp)
      · rename_i c₅ r₅ hr
        split at h
        · cases h
          have h₁ : (c₅ :: r).length ≤ ((r₂.dropWhile (inRange '0' '?')).dropWhile
              (inRange ' ' '/')).length := by rw [hr]
          have h₂ : ((r₂.dropWhile (inRange '0' '?')).dropWhile
              (inRange ' ' '/')).length ≤ (r₂.dropWhile (inRange '0' '?')).length :=
            (List.dropWhile_sublist _).length_le
          have h₃ : (r₂.dropWhile (inRange '0' '?')).length ≤ r₂.length :=
            (List.dropWhile_sublist _).length_le
          simp only [List.length_cons] at h₁ ⊢
          omega
        · exact absurd h (by simp)
    · exact absurd h (by simp)

/-- Step-bounded body of `ansi_escape.sub("", line)`: delete every
(leftmost, non-overlapping) match of the ANSI escape pattern; a failed
match attempt keeps the character and moves one position right, exactly as
`re.sub` scans.  Every step consumes at least one character, so the input
length bounds the number of steps (`ansiTail_length`); the explicit bound
keeps the recursion structural and hence kernel-reducible. -/
def ansiStripAux : Nat → List Char → List Char
  | _, [] => []
  | 0, l => l
  | fuel + 1, c :: rest =>
    if c = Char.ofNat 27 then
      match ansiTail rest with
      | some r => ansiStripAux fuel r
      | none => c :: ansiStripAux fuel rest
    else c :: ansiStripAux fuel rest

/-- `ansi_escape.sub("", line)`. -/
def ansiStrip (l : List Char) : List Char :=
  ansiStripAux l.length l

theorem ansiStripAux_nil (f : Nat) : ansiStripAux f [] = [] := by
  cases f <;> rfl

/-- The step bound of `ansiStripAux` never runs out when it starts at the
input length: more fuel never changes the result above that bound. -/
theorem ansiStripAux_fuel : ∀ (fuel : Nat) (l : List Char) (fuel' : Nat),
    l.length ≤ fuel → l.length ≤ fuel' →
    ansiStripAux fuel l = ansiStripAux fuel' l := by
  intro fuel
  induction fuel using Nat.strong_induction_on with
  | _ fuel ih =>
    intro l fuel' h h'
    match fuel, fuel', l with
    | f, f', [] => rw [ansiStripAux_nil, ansiStripAux_nil]
    | 0, f', c :: rest => exact absurd h (by simp)
    | f + 1, 0, c :: rest => exact absurd h' (by simp)
    | f + 1, f' + 1, c :: rest =>
      simp only [List.length_cons, Nat.add_le_add_iff_right] at h h'
      simp only [ansiStripAux]
      split
      · cases hat : ansiTail rest with
        | some r =>
          have hr := ansiTail_length hat
          exact ih f (Nat.lt_succ_self f) r f' (by omega) (by omega)
        | none =>
          rw [ih f (Nat.lt_succ_self f) rest f' h h']
      · rw [ih f (Nat.lt_succ_self f) rest f' h h']

/-- `clean_line = ansi_escape.sub("", line).rstrip()`. -/
def cleanLine (raw : List Char) : List Char :=
  rstrip (ansiStrip raw)

/-- `re.search` with an arbitrary at-this-position matcher: succeed if the
matcher succeeds at some start position (including the empty suffix). -/
def searchFrom (m : List Char → Bool) : List Char → Bool
  | [] => m []
  | c :: rest => m (c :: rest) || searchFrom m rest

/-- Matcher for `.*` followed by `m` (within one line, `.` does not match a
newline): `m` succeeds at some position whose gap contains no `'\n'`. -/
def findNoNL (m : List Char → Bool) : List Char → Bool
  | [] => m []
  | c :: rest => m (c :: rest) || (!(c = '\n') && findNoNL m rest)

/-- Matcher for a literal substring occurring anywhere (e.g.
`re.compile(r"docker scout").search`). -/
def containsLit (pat : String) (l : List Char) : Bool :=
  searchFrom (pat.data.isPrefixOf ·) l

/-- `re.compile(r"^-v\s+/")`: Docker volume mounts. -/
def noiseDockerVolume (l : List Char) : Bool :=
  "-v".data.isPrefixOf l &&
    (let r := l.drop 2
     !(r.takeWhile isPySpace).isEmpty &&
       match r.dropWhile isPySpace with
       | '/' :: _ => true
       | _ => false)

/-- `re.compile(r"platform.*does not match")`. -/
def noisePlatform (l : List Char) : Bool :=
  searchFrom (fun s => "platform".data.isPrefixOf s &&
    findNoNL ("does not match".data.isPrefixOf ·) (s.drop 8)) l

/-- `re.compile(r"^\s*$")`: empty (all-whitespace) lines. -/
def noiseEmpty (l : List Char) : Bool :=
  l.all isPySpace

/-- `re.compile(r"^\*+$")`: lines of just asterisks (`$` also matches just
before a trailing newline). -/
def noiseAsterisks (l : List Char) : Bool :=
  !(l.takeWhile (· = '*')).isEmpty &&
    (l.dropWhile (· = '*') = [] || l.dropWhile (· = '*') = ['\n'])

/-- `re.compile(r"^\*\*\s")`: cocotb table lines starting with `**`. -/
def noiseTableStart (l : List Char) : Bool :=
  "**".data.isPrefixOf l &&
    match l.drop 2 with
    | c :: _ => isPySpace c
    | [] => false

/-- `re.compile(r"^\s+\*\*")`: cocotb table continuation lines. -/
def noiseTableCont (l : List Char) : Bool :=
  !(l.takeWhile isPySpace).isEmpty && "**".data.isPrefixOf (l.dropWhile isPySpace)

/-- `re.compile(r"/usr/local/lib/python.*\.py:\d+:")`: Python path warnings
with line numbers. -/
def noisePyPath (l : List Char) : Bool :=
  searchFrom (fun s => "/usr/local/lib/python".data.isPrefixOf s &&
    findNoNL (fun t => ".py:".data.isPrefixOf t &&
      (let r := t.drop 4
       !(r.takeWhile isPyDigit).isEmpty &&
         match r.dropWhile isPyDigit with
         | ':' :: _ => true
         | _ => false)) (s.drop 21)) l

/-- `re.compile(r"^\s+cocotb\.(scheduler|log)")`: cocotb internal refs. -/
def noiseCocotbInternal (l : List Char) : Bool :=
  !(l.takeWhile isPySpace).isEmpty &&
    ("cocotb.scheduler".data.isPrefixOf (l.dropWhile isPySpace) ||
     "cocotb.log".data.isPrefixOf (l.dropWhile isPySpace))

/-- `re.compile(r"===WARNING===.*sky130")`: SKY130 timing warnings. -/
def noiseSky130 (l : List Char) : Bool :=
  searchFrom (fun s => "===WARNING===".data.isPrefixOf s &&
    findNoNL ("sky130".data.isPrefixOf ·) (s.drop 13)) l

/-- `re.compile(r"^\s+self\.")`: stack trace lines starting with `self.`. -/
def noiseSelf (l : List Char) : Bool :=
  !(l.takeWhile isPySpace).isEmpty && "self.".data.isPrefixOf (l.dropWhile isPySpace)

/-- The `noise_patterns` list of `run_command_write_to_file`, in source
order: a line is noise when any pattern's `search` succeeds on it. -/
def isNoise (l : List Char) : Bool :=
  noiseDockerVolume l ||
  containsLit "docker.io/" l ||
  containsLit "What's next:" l ||
  containsLit "docker scout" l ||
  containsLit "View a summary of image" l ||
  noisePlatform l ||
  noiseEmpty l ||
  containsLit "DeprecationWarning" l ||
  containsLit "RuntimeWarning" l ||
  noiseAsterisks l ||
  noiseTableStart l ||
  noiseTableCont l ||
  containsLit "cocotb.scheduler.add" l ||
  noisePyPath l ||
  noiseCocotbInternal l ||
  noiseSky130 l ||
  "VCD info:".data.isPrefixOf l ||
  noiseSelf l ||
  "/opt/homebrew/".data.isPrefixOf l ||
  containsLit "gpi_embed.cpp" l ||
  containsLit "GpiCommon.cpp" l ||
  containsLit "in gpi_print_registered" l ||
  containsLit "in set_program_name_in_venv" l ||
  containsLit "VPI registered" l ||
  containsLit "pytest not found" l

/-- The mutable state of `run_command_write_to_file`'s streaming loop: the
buffered (not yet printed) line, the lines appended to the log file so far,
and the lines printed to the console so far. -/
structure RunnerState where
  buffered : Option (List Char)
  log : List (List Char)
  out : List (List Char)
deriving DecidableEq

def initRunner : RunnerState := ⟨none, [], []⟩

/-- Python's `len(buffered_line or "")`. -/
def bufLen : Option (List Char) → Nat
  | none => 0
  | some l => l.length

/-- `is_progressive_duplicate(line1, line2)`: false when either is falsy
(`None` or empty); otherwise order the two by length and test whether the
shorter is a prefix of the longer with the longer exceeding it by more than
two characters. -/
def is_progressive_duplicate (line₁ : List Char) (line₂ : Option (List Char)) : Bool :=
  match line₂ with
  | none => false
  | some l₂ =>
    if line₁.isEmpty || l₂.isEmpty then false
    else
      let sl := if line₁.length < l₂.length then (line₁, l₂) else (l₂, line₁)
      sl.1.isPrefixOf sl.2 && decide (sl.1.length + 2 < sl.2.length)

/-- One iteration of the streaming loop on a raw output line: clean it
(ANSI-strip and rstrip), append the non-empty cleaned line to the log when
a log file was given, and, when not quiet and non-empty, either suppress it
as noise, fold it into the buffer as a progressive duplicate (keeping the
longer variant), or flush the buffer and buffer the new line. -/
def lineStep (haveLog quiet : Bool) (st : RunnerState) (raw : List Char) : RunnerState :=
  let clean := cleanLine raw
  let st₁ := if haveLog && !clean.isEmpty then { st with log := st.log ++ [clean] } else st
  if !quiet && !clean.isEmpty then
    if isNoise clean then st₁
    else if is_progressive_duplicate clean st₁.buffered then
      if bufLen st₁.buffered < clean.length then { st₁ with buffered := some clean }
      else st₁
    else { st₁ with out := st₁.out ++ st₁.buffered.toList, buffered := some clean }
  else st₁

/-- `flush_buffer()`: print the buffered line if there is one. -/
def flushRunner (st : RunnerState) : RunnerState :=
  { st with out := st.out ++ st.buffered.toList, buffered := none }

/-- The output-processing behaviour of `run_command_write_to_file`: stream
the subprocess's lines through `lineStep`, then flush the remaining
buffered line. -/
def run_command_write_to_file (haveLog quiet : Bool) (lines : List (List Char)) :
    RunnerState :=
  flushRunner (lines.foldl (lineStep haveLog quiet) initRunner)

theorem lineStep_clean (st : RunnerState) (b : List Char) (hb : cleanLine b = b)
    (hbe : b.isEmpty = false) (hbn : isNoise b = false) :
    lineStep false false st b =
      if is_progressive_duplicate b st.buffered then
        (if bufLen st.buffered < b.length then { st with buffered := some b } else st)
      else { st with out := st.out ++ st.buffered.toList, buffered := some b } := by
  simp [lineStep, hb, hbe, hbn]

/-- C2 counterexample: `"ab"` followed by `"abc"` — the first is a strict
prefix of the second, both are non-noise, yet **both** lines are printed
(the progressive-duplicate rule additionally requires the longer line to
exceed the shorter by more than two characters, which fails here), not
just the longer one as the claim states. -/
theorem progressive_duplicate_needs_margin_cex :
    "ab".data.isPrefixOf "abc".data = true ∧ "ab".data ≠ "abc".data ∧
    isNoise "ab".data = false ∧ isNoise "abc".data = false ∧
    (run_command_write_to_file false false ["ab".data, "abc".data]).out
      = ["ab".data, "abc".data] ∧
    (run_command_write_to_file false false ["ab".data, "abc".data]).out
      ≠ ["abc".data] := by decide

/-- C2 (amended): for consecutive non-noise cleaned lines where one is a
strict prefix of the other **and the longer exceeds the shorter by more
than two characters**, only the longer line is ultimately printed; when the
margin is not exceeded, or when neither is a prefix of the other, both
lines are printed in their original order.  (`"Compiling"` →
`"Compiling foo.v"` emits only the longer; `"Compiling"` → `"Linking"`
emits both.) -/
theorem progressive_duplicate_emission (a b : List Char)
    (ha : cleanLine a = a) (hb : cleanLine b = b)
    (hane : a ≠ []) (hbne : b ≠ [])
    (han : isNoise a = false) (hbn : isNoise b = false) :
    (a.isPrefixOf b = true → a.length + 2 < b.length →
      (run_command_write_to_file false false [a, b]).out = [b]) ∧
    (b.isPrefixOf a = true → b.length + 2 < a.length →
      (run_command_write_to_file false false [a, b]).out = [a]) ∧
    (a.isPrefixOf b = false → b.isPrefixOf a = false →
      (run_command_write_to_file false false [a, b]).out = [a, b]) := by
  have hae : a.isEmpty = false := by
    cases a with
    | nil => exact absurd rfl hane
    | cons c r => rfl
  have hbe : b.isEmpty = false := by
    cases b with
    | nil => exact absurd rfl hbne
    | cons c r => rfl
  have hstep₁ : lineStep false false initRunner a = ⟨some a, [], []⟩ := by
    rw [lineStep_clean initRunner a ha hae han]
    simp [is_progressive_duplicate, initRunner]
  have hr : run_command_write_to_file false false [a, b]
      = flushRunner (lineStep false false (⟨some a, [], []⟩ : RunnerState) b) := by
    show flushRunner (lineStep false false (lineStep false false initRunner a) b) = _
    rw [hstep₁]
  refine ⟨?_, ?_, ?_⟩
  · intro hpre hlen
    have h₁ : ¬ b.length < a.length := by omega
    have hprog : is_progressive_duplicate b (some a) = true := by
      simp [is_progressive_duplicate, hae, hbe, h₁, hpre, hlen]
    have h₂ : bufLen (some a) < b.length := by simp only [bufLen]; omega
    rw [hr, lineStep_clean _ b hb hbe hbn]
    simp [hprog, h₂, flushRunner]
  · intro hpre hlen
    have h₁ : b.length < a.length := by omega
    have hprog : is_progressive_duplicate b (some a) = true := by
      simp [is_progressive_duplicate, hae, hbe, h₁, hpre, hlen]
    have h₂ : ¬ bufLen (some a) < b.length := by simp only [bufLen]; omega
    rw [hr, lineStep_clean _ b hb hbe hbn]
    simp [hprog, h₂, flushRunner]
  · intro hab hba
    have hprog : is_progressive_duplicate b (some a) = false := by
      by_cases h₁ : b.length < a.length
      · simp [is_progressive_duplicate, hae, hbe, h₁, hba]
      · simp [is_progressive_duplicate, hae, hbe, h₁, hab]
    rw [hr, lineStep_clean _ b hb hbe hbn]
    simp [hprog, flushRunner]

/-- Witness for C2 (amended) at the spec's own example lines. -/
theorem progressive_duplicate_emission_witness :
    cleanLine "Compiling".data = "Compiling".data ∧
    cleanLine "Compiling foo.v".data = "Compiling foo.v".data ∧
    isNoise "Compiling".data = false ∧
    isNoise "Compiling foo.v".data = false ∧
    (run_command_write_to_file false false
      ["Compiling".data, "Compiling foo.v".data]).out = ["Compiling foo.v".data] :=
  ⟨by decide, by decide, by decide, by decide,
   (progressive_duplicate_emission "Compiling".data "Compiling foo.v".data
      (by decide) (by decide) (by decide) (by decide) (by decide) (by decide)).1
     (by decide) (by decide)⟩

/-- C5 counterexample: a whitespace-only output line — whose stripped form
is empty and therefore matches the empty-line noise signature — is **not**
appended to the log file even when a log file was given (and is not
printed either): the claim's "appends the stripped line to the log file"
part fails for empty lines. -/
theorem noise_empty_line_not_logged_cex :
    isNoise (cleanLine " ".data) = true ∧
    (run_command_write_to_file true true [" ".data]).log = [] ∧
    (run_command_write_to_file true false [" ".data]).log = [] ∧
    (run_command_write_to_file true false [" ".data]).out = [] := by decide

/-- C5 (amended): a line whose ANSI-stripped form matches one of the fixed
noise signatures is never printed to the console (in any verbosity) and
leaves the buffered line untouched; it is appended to the log file when a
log file was given **provided the stripped line is non-empty** — an empty
(all-whitespace) stripped line, which matches the empty-line noise
signature, is neither logged nor printed. -/
theorem noise_logged_never_printed (haveLog quiet : Bool) (st : RunnerState)
    (raw : List Char) (h : isNoise (cleanLine raw) = true) :
    (lineStep haveLog quiet st raw).out = st.out ∧
    (lineStep haveLog quiet st raw).buffered = st.buffered ∧
    (cleanLine raw ≠ [] → haveLog = true →
      (lineStep haveLog quiet st raw).log = st.log ++ [cleanLine raw]) ∧
    (cleanLine raw = [] → (lineStep haveLog quiet st raw).log = st.log) := by
  by_cases hc : cleanLine raw = []
  · simp [lineStep, hc]
  · have he : (cleanLine raw).isEmpty = false := by
      cases hcl : cleanLine raw with
      | nil => exact absurd hcl hc
      | cons c r => rfl
    cases hq : quiet <;> cases hl : haveLog <;> simp [lineStep, he, h, hc]

/-- Witness for C5 (amended) at a concrete noise line (a Docker volume
mount echo) with a log file given. -/
theorem noise_logged_never_printed_witness :
    isNoise (cleanLine "-v /tmp:/tmp".data) = true ∧
    (lineStep true false initRunner "-v /tmp:/tmp".data).out = initRunner.out ∧
    (lineStep true false initRunner "-v /tmp:/tmp".data).buffered = initRunner.buffered ∧
    (lineStep true false initRunner "-v /tmp:/tmp".data).log
      = initRunner.log ++ [cleanLine "-v /tmp:/tmp".data] :=
  ⟨by decide,
   (noise_logged_never_printed true false initRunner "-v /tmp:/tmp".data (by decide)).1,
   (noise_logged_never_printed true false initRunner "-v /tmp:/tmp".data (by decide)).2.1,
   (noise_logged_never_printed true false initRunner "-v /tmp:/tmp".data
      (by decide)).2.2.1 (by decide) rfl⟩

/-! ### OpenFrame GPIO interaction API (interfaces/openframe.py) -/

/-- A simulated signal value: a resolvable integer, or unresolvable
(`x`/`z`, cocotb's `is_resolvable == False`). -/
inductive SigVal where
  | resolved (v : Int)
  | unresolved
deriving DecidableEq

/-- The simulated testbench state: the value of every signal handle that
exists on the dut (`none` means no handle of that name exists, so
`self.dut._id(name, False)` raises `AttributeError`), plus the trace of
writes performed on handles so far. -/
structure SimState where
  dut : String → Option SigVal
  writes : List (String × Int)

/-- The `OpenFrame_env` configuration relevant to pin validation:
`self.active_gpios_num` (44, or the `OPENFRAME_IO_PADS` macro). -/
structure OFEnv where
  active_gpios_num : Int

/-- Log levels used by the pin operations. -/
inductive LogLevel where
  | error
  | debug
deriving DecidableEq

/-- The f-string signal names `f"gpio{gpio_num}..."` used by the pin
operations: the index is interpolated into the handle name. -/
def gpioName (n : Int) (suffix : String) : String :=
  "gpio" ++ toString n ++ suffix

/-- `self.dut._id(name, False)` (cocotb handle lookup): `AttributeError`
when no handle of that name exists. -/
def idLookup (st : SimState) (name : String) : Except String SigVal :=
  match st.dut name with
  | some v => .ok v
  | none => .error ("AttributeError: " ++ name)

/-- Modelled from the spec: `common.drive_hdl` lives in
`interfaces/common.py`, which is not among the provided sources.  The spec
describes the pin operations as driving "an individual simulated pin (and
its enable signal)" through the simulation-handle API, so `drive_hdl` is
modelled as setting the looked-up handle to the given value; the handle
lookup itself (`self.dut._id(name, False)`, raising on a missing handle)
is in `openframe.py`.  The write is also recorded in the trace. -/
def drive_hdl (st : SimState) (name : String) (value : Int) : Except String SimState :=
  match st.dut name with
  | none => .error ("AttributeError: " ++ name)
  | some _ =>
    .ok ⟨fun n => if n = name then some (.resolved value) else st.dut n,
         st.writes ++ [(name, value)]⟩

/-- The error text of `drive_gpio`'s out-of-range branch. -/
def gpioErrMax (env : OFEnv) (g : Int) : String :=
  "[openframe] GPIO " ++ toString g ++ " is out of range (max "
    ++ toString (env.active_gpios_num - 1) ++ ")"

/-- The error text of `release_gpio` / `monitor_gpio`'s out-of-range branch. -/
def gpioErr (g : Int) : String :=
  "[openframe] GPIO " ++ toString g ++ " is out of range"

/-- `OpenFrame_env.drive_gpio(gpio_num, value)`: if `gpio_num` is at least
the active pin count, log an error and return without touching any signal;
otherwise drive the pin's enable handle to 1 and the pin handle to the
value, then log a debug message. -/
def drive_gpio (env : OFEnv) (st : SimState) (gpio_num value : Int) :
    Except String (SimState × List (LogLevel × String)) :=
  if env.active_gpios_num ≤ gpio_num then
    .ok (st, [(.error, gpioErrMax env gpio_num)])
  else
    match drive_hdl st (gpioName gpio_num "_en") 1 with
    | .error e => .error e
    | .ok st₁ =>
      match drive_hdl st₁ (gpioName gpio_num "") value with
      | .error e => .error e
      | .ok st₂ =>
        .ok (st₂, [(.debug, "[openframe] drive GPIO[" ++ toString gpio_num
          ++ "] = " ++ toString value)])

/-- `OpenFrame_env.release_gpio(gpio_num)`: same validation, then drive the
enable handle to 0. -/
def release_gpio (env : OFEnv) (st : SimState) (gpio_num : Int) :
    Except String (SimState × List (LogLevel × String)) :=
  if env.active_gpios_num ≤ gpio_num then
    .ok (st, [(.error, gpioErr gpio_num)])
  else
    match drive_hdl st (gpioName gpio_num "_en") 0 with
    | .error e => .error e
    | .ok st₁ =>
      .ok (st₁, [(.debug, "[openframe] release GPIO[" ++ toString gpio_num ++ "]")])

/-- `OpenFrame_env.monitor_gpio(gpio_num)`: same validation (returning 0
out of range), then read the `gpio{n}_monitor` handle, treating an
unresolvable value as 0. -/
def monitor_gpio (env : OFEnv) (st : SimState) (gpio_num : Int) :
    Except String (Int × List (LogLevel × String)) :=
  if env.active_gpios_num ≤ gpio_num then
    .ok (0, [(.error, gpioErr gpio_num)])
  else
    match idLookup st (gpioName gpio_num "_monitor") with
    | .error e => .error e
    | .ok v =>
      .ok (match v with
           | .resolved n => n
           | .unresolved => 0, [])

/-- Python's `range(low, high + 1)` over machine integers. -/
def intRange (low high : Int) : List Int :=
  (List.range (high + 1 - low).toNat).map (fun (k : Nat) => low + (k : Int))

/-- `(value >> k) & 1`: bit `k` of a (two's-complement) integer; the
arithmetic right shift is floor division by `2 ^ k` and the masking is the
nonnegative remainder mod 2. -/
def bitAt (value : Int) (k : Nat) : Int :=
  (value.fdiv (2 ^ k)) % 2

/-- The loop of `drive_gpio_range`: drive each index in turn with its bit
of `value`, accumulating the logs; an exception anywhere aborts the loop. -/
def driveRangeGo (env : OFEnv) (value low : Int) :
    List Int → SimState → List (LogLevel × String) →
      Except String (SimState × List (LogLevel × String))
  | [], st, logs => .ok (st, logs)
  | i :: rest, st, logs =>
    match drive_gpio env st i (bitAt value (i - low).toNat) with
    | .error e => .error e
    | .ok (st', ls) => driveRangeGo env value low rest st' (logs ++ ls)

/-- `OpenFrame_env.drive_gpio_range((high, low), value)`: for each `i` in
`range(low, high + 1)`, drive pin `i` with `(value >> (i - low)) & 1`. -/
def drive_gpio_range (env : OFEnv) (st : SimState) (gpio_range : Int × Int)
    (value : Int) : Except String (SimState × List (LogLevel × String)) :=
  driveRangeGo env value gpio_range.2 (intRange gpio_range.2 gpio_range.1) st []

theorem drive_hdl_total (st : SimState) (name : String) (v : Int)
    (h : (st.dut name).isSome = true) :
    drive_hdl st name v
      = .ok ⟨fun n => if n = name then some (.resolved v) else st.dut n,
             st.writes ++ [(name, v)]⟩ := by
  unfold drive_hdl
  cases hd : st.dut name with
  | none => rw [hd] at h; contradiction
  | some x => rfl

theorem drive_gpio_in_range (env : OFEnv) (st : SimState) (g v : Int)
    (ht : ∀ n, (st.dut n).isSome = true) (hg : g < env.active_gpios_num) :
    ∃ st' logs, drive_gpio env st g v = .ok (st', logs) ∧
      st'.writes = st.writes ++ [(gpioName g "_en", 1), (gpioName g "", v)] ∧
      ∀ n, (st'.dut n).isSome = true := by
  have h₁ := drive_hdl_total st (gpioName g "_en") 1 (ht _)
  have ht₁ : ∀ n, ((if n = gpioName g "_en" then some (SigVal.resolved 1)
      else st.dut n)).isSome = true := by
    intro n
    split
    · rfl
    · exact ht n
  have h₂ := drive_hdl_total
    ⟨fun n => if n = gpioName g "_en" then some (.resolved 1) else st.dut n,
     st.writes ++ [(gpioName g "_en", 1)]⟩ (gpioName g "") v (ht₁ _)
  unfold drive_gpio
  rw [if_neg (not_le.mpr hg)]
  simp only [h₁]
  simp only [h₂]
  refine ⟨_, _, rfl, ?_, ?_⟩
  · simp
  · intro n
    by_cases hn : n = gpioName g ""
    · simp [hn]
    · simpa [hn] using ht₁ n

/-- The writes performed by the range loop over a given index list. -/
def rangeWrites (value low : Int) (idxs : List Int) : List (String × Int) :=
  idxs.flatMap (fun j => [(gpioName j "_en", 1), (gpioName j "", bitAt value (j - low).toNat)])

theorem driveRangeGo_writes (env : OFEnv) (value low : Int) :
    ∀ (idxs : List Int) (st : SimState) (logs : List (LogLevel × String)),
    (∀ n, (st.dut n).isSome = true) →
    (∀ j ∈ idxs, j < env.active_gpios_num) →
    ∃ st' logs', driveRangeGo env value low idxs st logs = .ok (st', logs') ∧
      st'.writes = st.writes ++ rangeWrites value low idxs ∧
      ∀ n, (st'.dut n).isSome = true := by
  intro idxs
  induction idxs with
  | nil =>
    intro st logs ht hb
    exact ⟨st, logs, rfl, by simp [rangeWrites], ht⟩
  | cons i rest ih =>
    intro st logs ht hb
    obtain ⟨st₁, ls, hok, hw, ht₁⟩ :=
      drive_gpio_in_range env st i (bitAt value (i - low).toNat) ht
        (hb i (List.mem_cons_self _ _))
    obtain ⟨st', logs', hok', hw', ht'⟩ :=
      ih st₁ (logs ++ ls) ht₁ (fun j hj => hb j (List.mem_cons_of_mem _ hj))
    refine ⟨st', logs', ?_, ?_, ht'⟩
    · unfold driveRangeGo
      rw [hok]
      exact hok'
    · rw [hw', hw]
      simp [rangeWrites]

theorem mem_intRange {low high i : Int} :
    i ∈ intRange low high ↔ low ≤ i ∧ i ≤ high := by
  unfold intRange
  rw [List.mem_map]
  constructor
  · rintro ⟨k, hk, rfl⟩
    rw [List.mem_range] at hk
    omega
  · rintro ⟨h₁, h₂⟩
    refine ⟨(i - low).toNat, ?_, ?_⟩
    · rw [List.mem_range]
      omega
    · omega

/-- C9: `drive_gpio_range((high, low), value)` drives, for every `i` with
`low ≤ i ≤ high`, pin `i` with bit `(value >> (i - low)) & 1` (and its
enable signal with 1): on a dut exposing all handles, the loop succeeds
and its write trace contains exactly those drives, in particular the drive
of pin `i` with its bit. -/
theorem drive_gpio_range_unpacks_bits (env : OFEnv) (st : SimState)
    (high low value i : Int)
    (ht : ∀ n, (st.dut n).isSome = true)
    (hhigh : high < env.active_gpios_num)
    (hlow : low ≤ i) (hi : i ≤ high) :
    ∃ st' logs, drive_gpio_range env st (high, low) value = .ok (st', logs) ∧
      st'.writes = st.writes ++ rangeWrites value low (intRange low high) ∧
      (gpioName i "", bitAt value (i - low).toNat) ∈ st'.writes ∧
      (gpioName i "_en", 1) ∈ st'.writes := by
  obtain ⟨st', logs', hok, hw, _⟩ :=
    driveRangeGo_writes env value low (intRange low high) st []
      ht (fun j hj => lt_of_le_of_lt (mem_intRange.mp hj).2 hhigh)
  refine ⟨st', logs', hok, hw, ?_, ?_⟩
  · rw [hw]
    refine List.mem_append_right _ ?_
    simp only [rangeWrites, List.mem_flatMap]
    exact ⟨i, mem_intRange.mpr ⟨hlow, hi⟩, by simp⟩
  · rw [hw]
    refine List.mem_append_right _ ?_
    simp only [rangeWrites, List.mem_flatMap]
    exact ⟨i, mem_intRange.mpr ⟨hlow, hi⟩, by simp⟩

/-- Witness for C9 at the spec's example: range `(high = 3, low = 0)` with
value `0b1010` on a 44-pin dut exposing every handle — pins 1 and 3 are
driven with bit 1, pins 0 and 2 with bit 0. -/
theorem drive_gpio_range_unpacks_bits_witness :
    (∀ n, ((⟨fun _ => some (.resolved 0), []⟩ : SimState).dut n).isSome = true) ∧
    ((3 : Int) < (⟨44⟩ : OFEnv).active_gpios_num) ∧
    bitAt 10 ((0 - 0 : Int)).toNat = 0 ∧ bitAt 10 ((1 - 0 : Int)).toNat = 1 ∧
    bitAt 10 ((2 - 0 : Int)).toNat = 0 ∧ bitAt 10 ((3 - 0 : Int)).toNat = 1 ∧
    (∀ i : Int, 0 ≤ i → i ≤ 3 →
      ∃ st' logs, drive_gpio_range ⟨44⟩ ⟨fun _ => some (.resolved 0), []⟩ (3, 0) 10
          = .ok (st', logs) ∧
        st'.writes = [] ++ rangeWrites 10 0 (intRange 0 3) ∧
        (gpioName i "", bitAt 10 (i - 0).toNat) ∈ st'.writes ∧
        (gpioName i "_en", 1) ∈ st'.writes) :=
  ⟨fun _ => rfl, by decide, by decide, by decide, by decide, by decide,
   fun i h₁ h₂ =>
     drive_gpio_range_unpacks_bits ⟨44⟩ ⟨fun _ => some (.resolved 0), []⟩ 3 0 10 i
       (fun _ => rfl) (by decide) h₁ h₂⟩

/-- C8: for every `gpio_num` at least the configured active pin count,
`drive_gpio` logs an error and performs no signal write — the state,
including both the pin and its enable signal, is returned untouched — and
`monitor_gpio` logs an error and returns 0; neither raises. -/
theorem out_of_range_gpio_safe (env : OFEnv) (st : SimState) (gpio_num value : Int)
    (h : env.active_gpios_num ≤ gpio_num) :
    drive_gpio env st gpio_num value
      = .ok (st, [(.error, gpioErrMax env gpio_num)]) ∧
    monitor_gpio env st gpio_num
      = .ok (0, [(.error, gpioErr gpio_num)]) := by
  constructor
  · unfold drive_gpio
    rw [if_pos h]
  · unfold monitor_gpio
    rw [if_pos h]

/-- Witness for C8 at `gpio_num = 44` on a 44-pin configuration. -/
theorem out_of_range_gpio_safe_witness :
    ((⟨44⟩ : OFEnv).active_gpios_num ≤ (44 : Int)) ∧
    drive_gpio ⟨44⟩ ⟨fun _ => none, []⟩ 44 1
      = .ok (⟨fun _ => none, []⟩, [(.error, gpioErrMax ⟨44⟩ 44)]) ∧
    monitor_gpio ⟨44⟩ ⟨fun _ => none, []⟩ 44
      = .ok (0, [(.error, gpioErr 44)]) :=
  ⟨by decide,
   (out_of_range_gpio_safe ⟨44⟩ ⟨fun _ => none, []⟩ 44 1 (by decide)).1,
   (out_of_range_gpio_safe ⟨44⟩ ⟨fun _ => none, []⟩ 44 1 (by decide)).2⟩

/-- C10: the pin-index validation checks only the upper bound: for every
negative `gpio_num` (under a nonnegative active pin count), the
out-of-range guard is not taken — no error is logged and no safe default
is returned — and `drive_gpio`, `release_gpio` and `monitor_gpio` instead
proceed to look up a signal whose name embeds the negative index; on a dut
without such a handle the lookup raises `AttributeError`. -/
theorem negative_gpio_not_validated (env : OFEnv) (g v : Int)
    (hg : g < 0) (ha : 0 ≤ env.active_gpios_num) :
    drive_gpio env ⟨fun _ => none, []⟩ g v
      = .error ("AttributeError: " ++ gpioName g "_en") ∧
    release_gpio env ⟨fun _ => none, []⟩ g
      = .error ("AttributeError: " ++ gpioName g "_en") ∧
    monitor_gpio env ⟨fun _ => none, []⟩ g
      = .error ("AttributeError: " ++ gpioName g "_monitor") := by
  have hn : ¬ env.active_gpios_num ≤ g := by omega
  refine ⟨?_, ?_, ?_⟩
  · unfold drive_gpio
    rw [if_neg hn]
    rfl
  · unfold release_gpio
    rw [if_neg hn]
    rfl
  · unfold monitor_gpio
    rw [if_neg hn]
    rfl

/-- Witness for C10 at `gpio_num = -1` on a 44-pin configuration: the
accessed handle names embed the negative index. -/
theorem negative_gpio_not_validated_witness :
    ((-1 : Int) < 0) ∧ ((0 : Int) ≤ (⟨44⟩ : OFEnv).active_gpios_num) ∧
    gpioName (-1) "_en" = "gpio-1_en" ∧
    gpioName (-1) "_monitor" = "gpio-1_monitor" ∧
    drive_gpio ⟨44⟩ ⟨fun _ => none, []⟩ (-1) 1
      = .error ("AttributeError: " ++ gpioName (-1) "_en") ∧
    release_gpio ⟨44⟩ ⟨fun _ => none, []⟩ (-1)
      = .error ("AttributeError: " ++ gpioName (-1) "_en") ∧
    monitor_gpio ⟨44⟩ ⟨fun _ => none, []⟩ (-1)
      = .error ("AttributeError: " ++ gpioName (-1) "_monitor") :=
  ⟨by decide, by decide, by decide, by decide,
   (negative_gpio_not_validated ⟨44⟩ (-1) 1 (by decide) (by decide)).1,
   (negative_gpio_not_validated ⟨44⟩ (-1) 1 (by decide) (by decide)).2.1,
   (negative_gpio_not_validated ⟨44⟩ (-1) 1 (by decide) (by decide)).2.2⟩

end CaravelSim
